import Mathlib

/-!
# Verification of the discord-notifier rate-limiting / retry core

Shallow embedding of the repository's `RetryHandler`
(`src/utils/RetryHandler.ts`), `RateLimitService` and `InteractionService`
(`src/services/RateLimitService.ts`, `src/services/InteractionService.ts`),
together with theorems settling the specification's claims about them.

Modelling conventions:
* JavaScript numbers appearing on error objects (status codes, cooldown
  fields) are modelled as integers `ℤ`; token-bucket arithmetic and
  timestamps, which involve division, are modelled over `ℚ`.
* A caught failure is either an instance of the `RateLimitError` class or a
  plain duck-typed object carrying optional `status` / `statusCode` /
  `code` / `retryAfter` / `retry_after` properties.  A property may hold a
  number or a string (`code` is a string for network errors); the cooldown
  properties `retryAfter` / `retry_after`, which the code only ever uses as
  numbers, are modelled as optional integers.
* Asynchronous suspension (`sleep`) is modelled by explicit time passing:
  functions take the current `Date.now()` value as a `ℚ` argument and
  polling loops carry a fuel parameter, since the source's recursion
  (`acquireFromBucket`) is unbounded.
-/

namespace DiscordNotifier

/-- A JavaScript property value carried on a duck-typed error object:
the probed fields may hold a number or a string. -/
inductive JsField where
  | num (n : ℤ)
  | str (s : String)
deriving DecidableEq, Repr

/-- A plain error object as probed by `RetryHandler` and `RateLimitService`:
each recognised property is optionally present (`none` models a property
that is absent, i.e. `'p' in error` is false). -/
structure JsError where
  status : Option JsField := none
  statusCode : Option JsField := none
  code : Option JsField := none
  retryAfter : Option ℤ := none
  retry_after : Option ℤ := none
deriving DecidableEq, Repr

/-- An error value flowing through the core: an instance of the
`RateLimitError` class from `src/errors/DiscordErrors.ts` (constructed with
its `retryAfter` cooldown in milliseconds and an optional channel id), or a
plain duck-typed object. -/
inductive AppError where
  | rateLimitError (retryAfter : ℤ) (channelId : Option String)
  | jsError (e : JsError)
deriving DecidableEq, Repr

/-- `error instanceof RateLimitError`. -/
def isRateLimitInstance : AppError → Bool
  | .rateLimitError _ _ => true
  | .jsError _ => false

/-- The retry configuration of `RetryHandler` (`maxRetries`, `baseDelay`,
`retryableCodes`), with the source's defaults. -/
structure RetryHandler where
  maxRetries : ℕ := 3
  baseDelay : ℚ := 1000
  retryableCodes : List ℤ := [429, 500, 502, 503, 504]
deriving Repr

/-- `RetryHandler.isNetworkError`: the error is an object whose `code`
property holds a string belonging to the recognised network error codes.
A `RateLimitError` instance carries no `code` property. -/
def isNetworkError : AppError → Bool
  | .rateLimitError _ _ => false
  | .jsError e =>
    match e.code with
    | some (.str s) =>
      ["ECONNRESET", "ECONNREFUSED", "ETIMEDOUT", "ENOTFOUND", "EAI_AGAIN"].contains s
    | _ => false

/-- `RetryHandler.isHttpError`: the error is an object with a `status`,
`statusCode` or `code` property (of any type).  A `RateLimitError` instance
carries none of these properties. -/
def isHttpError : AppError → Bool
  | .rateLimitError _ _ => false
  | .jsError e => e.status.isSome || e.statusCode.isSome || e.code.isSome

/-- `RetryHandler.extractStatusCode`: the first property among `status`,
`statusCode`, `code` (in that order) that is present and holds a number;
`none` when no such property exists. -/
def extractStatusCode : AppError → Option ℤ
  | .rateLimitError _ _ => none
  | .jsError e =>
    match e.status with
    | some (.num n) => some n
    | _ =>
      match e.statusCode with
      | some (.num n) => some n
      | _ =>
        match e.code with
        | some (.num n) => some n
        | _ => none

/-- `RetryHandler.isRetryableError`: a `RateLimitError` instance is
retryable; else a recognised network error is retryable; else an HTTP error
is retryable exactly when its extracted status code is in the configured
retryable set; anything else is not retried. -/
def isRetryableError (h : RetryHandler) (e : AppError) : Bool :=
  if isRateLimitInstance e then true
  else if isNetworkError e then true
  else if isHttpError e then
    match extractStatusCode e with
    | some n => h.retryableCodes.contains n
    | none => false
  else false

/-- `RetryHandler.calculateDelay`: exponential backoff
`baseDelay * 2 ^ attempt` milliseconds. -/
def calculateDelay (h : RetryHandler) (attempt : ℕ) : ℚ :=
  h.baseDelay * 2 ^ attempt

/-- The observable record of one `RetryHandler.execute` call: its outcome,
the number of times the operation was invoked, and the total backoff delay
slept between attempts. -/
structure ExecResult (α : Type) where
  result : Except AppError α
  invocations : ℕ
  totalDelay : ℚ
deriving Repr

/-- The attempt loop of `RetryHandler.execute`, entered at attempt number
`attempt`.  The operation is modelled as a function from the attempt number
to that attempt's outcome.  `fuel` is the number of further attempts still
allowed after the current one; every call maintains
`fuel = maxRetries - attempt`, so the source's exit test
`attempt === maxRetries` is exactly the case `fuel = 0`. -/
def executeFrom (h : RetryHandler) (op : ℕ → Except AppError α) :
    ℕ → ℕ → ExecResult α
  | attempt, 0 =>
    match op attempt with
    | .ok v => ⟨.ok v, 1, 0⟩
    | .error e =>
      -- the source tests `!isRetryable || attempt === maxRetries`: on the
      -- final allowed attempt (`fuel = 0`) it throws either way
      ⟨.error e, 1, 0⟩
  | attempt, fuel + 1 =>
    match op attempt with
    | .ok v => ⟨.ok v, 1, 0⟩
    | .error e =>
      if isRetryableError h e then
        let r := executeFrom h op (attempt + 1) fuel
        ⟨r.result, r.invocations + 1, r.totalDelay + calculateDelay h attempt⟩
      else ⟨.error e, 1, 0⟩

/-- `RetryHandler.execute`: run the attempt loop from attempt `0` with
`maxRetries` further attempts allowed. -/
def execute (h : RetryHandler) (op : ℕ → Except AppError α) : ExecResult α :=
  executeFrom h op 0 h.maxRetries

/-- A token bucket (`src/services/RateLimitService.ts`): `tokens` may become
fractional or negative, `refillRate` is in tokens per second, `lastRefill`
is a millisecond timestamp. -/
structure TokenBucket where
  tokens : ℚ
  capacity : ℚ
  refillRate : ℚ
  lastRefill : ℚ
deriving DecidableEq, Repr

/-- `RateLimitService.refillBucket` at current time `now`: add
`elapsed_seconds × refillRate` tokens capped at `capacity`, and stamp
`lastRefill = now`.  When `lastRefill` lies in the future the elapsed time
is negative and the addition drives `tokens` down. -/
def refillBucket (b : TokenBucket) (now : ℚ) : TokenBucket :=
  { b with
    tokens := min b.capacity (b.tokens + (now - b.lastRefill) / 1000 * b.refillRate)
    lastRefill := now }

/-- `RateLimitService.calculateWaitTime`: `Math.ceil(1000 / refillRate)`
milliseconds until the next poll. -/
def calculateWaitTime (b : TokenBucket) : ℚ :=
  ((⌈(1000 : ℚ) / b.refillRate⌉ : ℤ) : ℚ)

/-- `RateLimitService.acquireFromBucket` at current time `now`: refill,
then either consume one token and return at the current time, or sleep for
the wait interval and retry the whole acquisition.  The source recursion is
unbounded, so the model takes a poll budget `fuel`; `none` means every
polled instant found the bucket empty.  On a grant the result carries the
bucket after the deduction and the instant at which the token was granted. -/
def acquireFromBucket : ℕ → TokenBucket → ℚ → Option (TokenBucket × ℚ)
  | 0, _, _ => none
  | fuel + 1, b, now =>
    let b' := refillBucket b now
    if 1 ≤ b'.tokens then some ({ b' with tokens := b'.tokens - 1 }, now)
    else acquireFromBucket fuel b' (now + calculateWaitTime b')

/-- A freshly created per-channel bucket: capacity 5, refill rate 5/s,
full, stamped at creation time (`RateLimitService.getOrCreateChannelBucket`,
constants `CHANNEL_CAPACITY` / `CHANNEL_REFILL_RATE`). -/
def defaultChannelBucket (now : ℚ) : TokenBucket :=
  { tokens := 5, capacity := 5, refillRate := 5, lastRefill := now }

/-- The freshly constructed global bucket: capacity 50, refill rate 50/s
(constants `GLOBAL_CAPACITY` / `GLOBAL_REFILL_RATE`). -/
def defaultGlobalBucket (now : ℚ) : TokenBucket :=
  { tokens := 50, capacity := 50, refillRate := 50, lastRefill := now }

/-- The mutable state of a `RateLimitService`: the global bucket and the
channel-id-keyed bucket map (modelled as a function to `Option`). -/
structure RateLimitService where
  globalBucket : TokenBucket
  channelBuckets : String → Option TokenBucket

/-- Replace the stored bucket of channel `c` (models mutating the bucket
object held in the `Map`). -/
def setChannelBucket (s : RateLimitService) (c : String) (b : TokenBucket) :
    RateLimitService :=
  { s with channelBuckets := fun c' => if c' = c then some b else s.channelBuckets c' }

/-- `RateLimitService.getOrCreateChannelBucket` at current time `now`:
the stored bucket if one exists, else a fresh default channel bucket is
stored and returned. -/
def getOrCreateChannelBucket (s : RateLimitService) (c : String) (now : ℚ) :
    TokenBucket × RateLimitService :=
  match s.channelBuckets c with
  | some b => (b, s)
  | none => (defaultChannelBucket now, setChannelBucket s c (defaultChannelBucket now))

/-- `RateLimitService.handleRateLimit` at current time `now`: deplete the
channel's bucket by setting `tokens = 0` and `lastRefill = now + retryAfter`. -/
def handleRateLimit (s : RateLimitService) (c : String) (retryAfter : ℚ) (now : ℚ) :
    RateLimitService :=
  let (b, s') := getOrCreateChannelBucket s c now
  setChannelBucket s' c { b with tokens := 0, lastRefill := now + retryAfter }

/-- `RateLimitService.acquireToken` starting at time `now`: acquire from
the global bucket first, then from the channel's bucket (created on demand),
which is polled from the instant the global token was granted.  The result
carries the updated service state and the instant the channel token was
granted; `none` means a poll budget ran out. -/
def acquireToken (s : RateLimitService) (c : String) (fuel : ℕ) (now : ℚ) :
    Option (RateLimitService × ℚ) :=
  match acquireFromBucket fuel s.globalBucket now with
  | none => none
  | some (gb, t1) =>
    let s1 : RateLimitService := { s with globalBucket := gb }
    let (cb, s2) := getOrCreateChannelBucket s1 c t1
    match acquireFromBucket fuel cb t1 with
    | none => none
    | some (cb', t2) => some (setChannelBucket s2 c cb', t2)

/-- `RateLimitService.isRateLimitError`: the error carries a `status`,
`statusCode` or `code` property strictly equal to the number 429.  A
`RateLimitError` instance carries none of these properties. -/
def isRateLimitError : AppError → Bool
  | .rateLimitError _ _ => false
  | .jsError e =>
    (e.status == some (.num 429)) || (e.statusCode == some (.num 429)) ||
      (e.code == some (.num 429))

/-- JavaScript truthiness of an optional numeric property: present and
nonzero. -/
def truthy : Option ℤ → Bool
  | some n => n != 0
  | none => false

/-- `RateLimitService.extractRetryAfter`: the `retryAfter` property in
milliseconds if truthy; else the `retry_after` property (seconds) times
1000 if truthy; else 1000.  A `RateLimitError` instance carries its
`retryAfter` field (in milliseconds) and no `retry_after` property. -/
def extractRetryAfter : AppError → ℤ
  | .rateLimitError ra _ => if ra != 0 then ra else 1000
  | .jsError e =>
    if truthy e.retryAfter then e.retryAfter.getD 0
    else if truthy e.retry_after then e.retry_after.getD 0 * 1000
    else 1000

/-- The catch phase of `RateLimitService.executeWithRateLimit` at current
time `now`, applied to the operation's outcome: a 429-carrying failure
depletes the channel bucket with the extracted cooldown and a fresh
`RateLimitError` is thrown in its place; every other outcome is passed
through with the state untouched. -/
def rateLimitCatch (s : RateLimitService) (c : String) (now : ℚ)
    (opResult : Except AppError α) : Except AppError α × RateLimitService :=
  match opResult with
  | .ok v => (.ok v, s)
  | .error e =>
    if isRateLimitError e then
      let ra := extractRetryAfter e
      (.error (.rateLimitError ra (some c)), handleRateLimit s c (ra : ℚ) now)
    else (.error e, s)

/-- `RateLimitService.executeWithRateLimit`: await `acquireToken`, run the
operation (modelled as a function of the instant it starts), and apply the
catch phase at that instant. -/
def executeWithRateLimit (s : RateLimitService) (c : String) (fuel : ℕ) (now : ℚ)
    (op : ℚ → Except AppError α) : Option (Except AppError α × RateLimitService) :=
  match acquireToken s c fuel now with
  | none => none
  | some (s1, t) => some (rateLimitCatch s1 c t (op t))

/-- What `InteractionService.handleInteraction` can throw for a dispatched
button handler. -/
inductive InteractionError where
  | interactionTimeout (customId : String)
  | handlerFailure (e : AppError)
deriving DecidableEq, Repr

/-- The deadline-tracking core of `InteractionService.handleInteraction`
for a button with a registered handler: `replied` / `deferred` are the
interaction's acknowledgment flags at the instant the handler finishes,
`elapsed` is `Date.now() - startTime` in milliseconds at that instant, and
`outcome` is the handler's result.  When the handler returns successfully,
an unacknowledged interaction whose elapsed time exceeds 3000 ms raises
`InteractionTimeoutError` (rethrown by the catch block); when the handler
fails, its failure is rethrown after the error-reply attempt. -/
def handleInteraction (customId : String) (replied deferred : Bool)
    (elapsed : ℚ) (outcome : Except AppError Unit) : Except InteractionError Unit :=
  match outcome with
  | .error e => .error (.handlerFailure e)
  | .ok _ =>
    let acknowledged := replied || deferred
    if !acknowledged && decide (3000 < elapsed) then
      .error (.interactionTimeout customId)
    else .ok ()

/-- The operations of one bucket's life considered by the specification:
lazy refills, token deductions (`acquireFromBucket`'s consume step, taken
only when a full token is available), and the external depletion signal
(`handleRateLimit`'s bucket mutation). -/
inductive BucketOp where
  | refill (now : ℚ)
  | acquire
  | deplete (retryAfter : ℚ) (now : ℚ)
deriving DecidableEq, Repr

/-- Apply one bucket operation. -/
def applyBucketOp (b : TokenBucket) : BucketOp → TokenBucket
  | .refill now => refillBucket b now
  | .acquire => if 1 ≤ b.tokens then { b with tokens := b.tokens - 1 } else b
  | .deplete retryAfter now => { b with tokens := 0, lastRefill := now + retryAfter }

/-! ## Lemmas about the retry loop -/

theorem executeFrom_invocations_pos (h : RetryHandler) (op : ℕ → Except AppError α) :
    ∀ (fuel attempt : ℕ), 1 ≤ (executeFrom h op attempt fuel).invocations := by
  intro fuel
  induction fuel with
  | zero =>
    intro attempt
    cases hop : op attempt with
    | ok v => simp [executeFrom, hop]
    | error e => simp [executeFrom, hop]
  | succ n ih =>
    intro attempt
    cases hop : op attempt with
    | ok v => simp [executeFrom, hop]
    | error e =>
      simp only [executeFrom, hop]
      split
      · exact Nat.le_add_left _ _
      · simp

theorem executeFrom_invocations_le (h : RetryHandler) (op : ℕ → Except AppError α) :
    ∀ (fuel attempt : ℕ), (executeFrom h op attempt fuel).invocations ≤ fuel + 1 := by
  intro fuel
  induction fuel with
  | zero =>
    intro attempt
    cases hop : op attempt with
    | ok v => simp [executeFrom, hop]
    | error e => simp [executeFrom, hop]
  | succ n ih =>
    intro attempt
    cases hop : op attempt with
    | ok v => simp [executeFrom, hop]
    | error e =>
      simp only [executeFrom, hop]
      split
      · simpa using Nat.succ_le_succ (ih (attempt + 1))
      · simp

theorem executeFrom_error_is_last (h : RetryHandler) (op : ℕ → Except AppError α) :
    ∀ (fuel attempt : ℕ) (e : AppError),
      (executeFrom h op attempt fuel).result = .error e →
      op (attempt + ((executeFrom h op attempt fuel).invocations - 1)) = .error e := by
  intro fuel
  induction fuel with
  | zero =>
    intro attempt e
    cases hop : op attempt with
    | ok v => simp [executeFrom, hop]
    | error e0 =>
      simp only [executeFrom, hop]
      intro hr
      simp at hr
      simpa [hr] using hop
  | succ n ih =>
    intro attempt e
    cases hop : op attempt with
    | ok v => simp [executeFrom, hop]
    | error e0 =>
      simp only [executeFrom, hop]
      split
      · intro hr
        simp only at hr ⊢
        have h1 := executeFrom_invocations_pos h op n (attempt + 1)
        have h2 := ih (attempt + 1) e hr
        have harith :
            attempt + ((executeFrom h op (attempt + 1) n).invocations + 1 - 1) =
              attempt + 1 + ((executeFrom h op (attempt + 1) n).invocations - 1) := by
          omega
        rwa [harith]
      · intro hr
        simp at hr
        simpa [hr] using hop

theorem executeFrom_const_error (h : RetryHandler) (op : ℕ → Except AppError α)
    (e : AppError) (hop : ∀ n, op n = .error e)
    (hret : isRetryableError h e = true) :
    ∀ (fuel attempt : ℕ),
      (executeFrom h op attempt fuel).result = .error e ∧
      (executeFrom h op attempt fuel).invocations = fuel + 1 := by
  intro fuel
  induction fuel with
  | zero => intro attempt; simp [executeFrom, hop]
  | succ n ih =>
    intro attempt
    simp only [executeFrom, hop attempt, hret, if_true]
    exact ⟨(ih (attempt + 1)).1, by simp [(ih (attempt + 1)).2]⟩

/-! ## Claim theorems about `RetryHandler` -/

/-- C9: for every attempt number `n ≥ 0` the backoff delay before the next
retry equals `baseDelay × 2 ^ n` milliseconds; with `baseDelay = 1000`,
attempts 0, 1, 2, 3 yield exactly 1000, 2000, 4000 and 8000 milliseconds. -/
theorem calculateDelay_exponential :
    (∀ (h : RetryHandler) (n : ℕ), calculateDelay h n = h.baseDelay * 2 ^ n) ∧
    calculateDelay { baseDelay := 1000 } 0 = 1000 ∧
    calculateDelay { baseDelay := 1000 } 1 = 2000 ∧
    calculateDelay { baseDelay := 1000 } 2 = 4000 ∧
    calculateDelay { baseDelay := 1000 } 3 = 8000 := by
  refine ⟨fun h n => rfl, ?_, ?_, ?_, ?_⟩ <;> norm_num [calculateDelay]

/-- C1: `execute` invokes the operation at most `maxRetries + 1` times, and
with `maxRetries = 2` and an operation failing on every invocation with a
retryable error it invokes the operation exactly 3 times and rethrows that
error. -/
theorem execute_attempt_budget :
    (∀ (α : Type) (h : RetryHandler) (op : ℕ → Except AppError α),
      (execute h op).invocations ≤ h.maxRetries + 1) ∧
    (∀ (α : Type) (h : RetryHandler) (op : ℕ → Except AppError α) (e : AppError),
      h.maxRetries = 2 → (∀ n, op n = .error e) → isRetryableError h e = true →
      (execute h op).result = .error e ∧ (execute h op).invocations = 3) := by
  constructor
  · intro α h op
    exact executeFrom_invocations_le h op h.maxRetries 0
  · intro α h op e hmax hop hret
    have hc := executeFrom_const_error h op e hop hret h.maxRetries 0
    rw [hmax] at hc
    simpa [execute, hmax] using hc

/-- C5: an operation whose first invocation raises an error that is not
retryable (`Fatal`-classified) is invoked exactly once, incurs no backoff
delay, and its error is rethrown. -/
theorem execute_fatal_rethrows_once :
    ∀ (α : Type) (h : RetryHandler) (e : AppError) (op : ℕ → Except AppError α),
      op 0 = .error e → isRetryableError h e = false →
      execute h op = ⟨.error e, 1, 0⟩ := by
  intro α h e op hop hret
  cases hm : h.maxRetries with
  | zero => simp [execute, executeFrom, hop, hret, hm]
  | succ n => simp [execute, executeFrom, hop, hret, hm]

/-- Witness for C5: an error with status 403 (not in the default retryable
set, no network code, not a `RateLimitError`) is rethrown after exactly one
invocation with zero delay. -/
theorem execute_fatal_rethrows_once_witness :
    execute {} (fun _ => (.error (.jsError { status := some (.num 403) }) : Except AppError Unit)) =
      ⟨.error (.jsError { status := some (.num 403) }), 1, 0⟩ :=
  execute_fatal_rethrows_once Unit {} (.jsError { status := some (.num 403) })
    (fun _ => .error (.jsError { status := some (.num 403) })) rfl (by decide)

/-! ## Lemmas about token buckets -/

theorem refillBucket_tokens_le_capacity (b : TokenBucket) (now : ℚ) :
    (refillBucket b now).tokens ≤ b.capacity :=
  min_le_left _ _

/-- If a bucket's tokens are below the deficit line
`refillRate * (lastRefill - D) / 1000` (the token level a bucket stamped at
time `D` with zero tokens would reach by lazy refilling), a refill keeps it
below the line: refilling is linear in elapsed time and the cap only lowers
the value. -/
theorem refillBucket_deficit (b : TokenBucket) (now D : ℚ)
    (hdef : b.tokens ≤ b.refillRate * (b.lastRefill - D) / 1000) :
    (refillBucket b now).tokens ≤ b.refillRate * (now - D) / 1000 := by
  have h1 : (refillBucket b now).tokens ≤
      b.tokens + (now - b.lastRefill) / 1000 * b.refillRate :=
    min_le_right _ _
  have h2 : b.tokens + (now - b.lastRefill) / 1000 * b.refillRate ≤
      b.refillRate * (b.lastRefill - D) / 1000 +
        (now - b.lastRefill) / 1000 * b.refillRate := by linarith
  have h3 : b.refillRate * (b.lastRefill - D) / 1000 +
      (now - b.lastRefill) / 1000 * b.refillRate =
      b.refillRate * (now - D) / 1000 := by ring
  linarith

/-- A bucket below its deficit line for cut-off time `D` cannot grant a
token at any instant `t < D` plus one refill interval: whenever the polling
acquisition succeeds, the grant instant is at least `D`. -/
theorem acquireFromBucket_deficit_grant (D : ℚ) :
    ∀ (fuel : ℕ) (b : TokenBucket) (now : ℚ) (b' : TokenBucket) (t : ℚ),
      0 < b.refillRate →
      b.tokens ≤ b.refillRate * (b.lastRefill - D) / 1000 →
      acquireFromBucket fuel b now = some (b', t) → D ≤ t := by
  intro fuel
  induction fuel with
  | zero =>
    intro b now b' t _ _ hacq
    simp [acquireFromBucket] at hacq
  | succ n ih =>
    intro b now b' t hrate hdef hacq
    simp only [acquireFromBucket] at hacq
    by_cases hg : 1 ≤ (refillBucket b now).tokens
    · rw [if_pos hg] at hacq
      have ht : t = now := by
        simp only [Option.some.injEq, Prod.mk.injEq] at hacq
        exact hacq.2.symm
      subst ht
      have hkey : (1 : ℚ) ≤ b.refillRate * (t - D) / 1000 :=
        le_trans hg (refillBucket_deficit b t D hdef)
      by_contra hcon
      push_neg at hcon
      have h2 : b.refillRate * (t - D) < 0 :=
        mul_neg_of_pos_of_neg hrate (by linarith)
      have h3 : b.refillRate * (t - D) / 1000 < 0 :=
        div_neg_of_neg_of_pos h2 (by norm_num)
      linarith
    · rw [if_neg hg] at hacq
      refine ih (refillBucket b now) _ b' t hrate ?_ hacq
      simpa [refillBucket] using refillBucket_deficit b now D hdef

/-! ## Claim theorems about the rate limiter -/

/-- After `handleRateLimit`, the channel's stored bucket has `tokens = 0`
and `lastRefill = now + R`. -/
theorem handleRateLimit_lookup (s : RateLimitService) (c : String) (R now : ℚ) :
    ∃ bb : TokenBucket,
      (handleRateLimit s c R now).channelBuckets c = some bb ∧
      bb.tokens = 0 ∧ bb.lastRefill = now + R := by
  obtain ⟨b0, s', hb⟩ : ∃ b0 s', getOrCreateChannelBucket s c now = (b0, s') :=
    ⟨_, _, rfl⟩
  refine ⟨{ b0 with tokens := 0, lastRefill := now + R }, ?_, rfl, rfl⟩
  simp [handleRateLimit, hb, setChannelBucket]

/-- C3: `handleRateLimit c R` at time `now` stores a channel bucket with
`tokens = 0` and `lastRefill = now + R`, and no polling acquisition on that
bucket — started at any time, with any poll budget — is granted before
`now + R`: while `lastRefill` lies in the future, each refill adds a
negative quantity, keeping the bucket under the 1-token threshold. -/
theorem handleRateLimit_cooldown :
    ∀ (s : RateLimitService) (c : String) (R now : ℚ), 0 < R →
      ∃ bb : TokenBucket,
        (handleRateLimit s c R now).channelBuckets c = some bb ∧
        bb.tokens = 0 ∧ bb.lastRefill = now + R ∧
        (0 < bb.refillRate →
          ∀ (fuel : ℕ) (t : ℚ) (b' : TokenBucket) (tg : ℚ),
            acquireFromBucket fuel bb t = some (b', tg) → now + R ≤ tg) := by
  intro s c R now hR
  obtain ⟨bb, hl, ht, hlr⟩ := handleRateLimit_lookup s c R now
  refine ⟨bb, hl, ht, hlr, ?_⟩
  intro hrate fuel t b' tg hacq
  refine acquireFromBucket_deficit_grant (now + R) fuel _ t b' tg hrate ?_ hacq
  simp [ht, hlr]

/-- Witness for C3 at a concrete input: a fresh service, channel `"ch"`,
`retryAfterMs = 5000`, at time 0. -/
theorem handleRateLimit_cooldown_witness :
    ∃ bb : TokenBucket,
      (handleRateLimit ⟨defaultGlobalBucket 0, fun _ => none⟩ "ch" 5000 0).channelBuckets "ch" =
        some bb ∧
      bb.tokens = 0 ∧ bb.lastRefill = 0 + 5000 ∧
      (0 < bb.refillRate →
        ∀ (fuel : ℕ) (t : ℚ) (b' : TokenBucket) (tg : ℚ),
          acquireFromBucket fuel bb t = some (b', tg) → 0 + 5000 ≤ tg) :=
  handleRateLimit_cooldown ⟨defaultGlobalBucket 0, fun _ => none⟩ "ch" 5000 0 (by norm_num)

/-- C6 (amended): after any refill `tokens ≤ capacity`; tokens can go
negative (a depleted bucket refilled before its future `lastRefill` reaches
-45 tokens); acquisition never increases tokens; the external depletion
signal sets `tokens` to exactly 0 — an increase exactly when tokens were
negative, so depletion (not only refill) can increase the token count. -/
theorem bucket_tokens_capped_after_refill :
    (∀ (b : TokenBucket) (now : ℚ),
      (applyBucketOp b (.refill now)).tokens ≤ b.capacity) ∧
    (applyBucketOp (applyBucketOp (defaultChannelBucket 0) (.deplete 10000 0))
      (.refill 1000)).tokens = -45 ∧
    (∀ b : TokenBucket, (applyBucketOp b .acquire).tokens ≤ b.tokens) ∧
    (∀ (b : TokenBucket) (R now : ℚ), (applyBucketOp b (.deplete R now)).tokens = 0) := by
  refine ⟨fun b now => min_le_left _ _, ?_, fun b => ?_, fun b R now => rfl⟩
  · norm_num [applyBucketOp, refillBucket, defaultChannelBucket, min_def]
  · simp only [applyBucketOp]
    split
    · simp
    · exact le_refl _

/-- Counterexample to C6 as stated: the claim says no operation other than
refill increases `tokens`, but the external depletion signal applied to a
(reachable) bucket holding -45 tokens raises them to 0. -/
theorem bucket_nonrefill_increase_counterexample :
    (applyBucketOp (applyBucketOp (defaultChannelBucket 0) (.deplete 10000 0))
      (.refill 1000)).tokens = -45 ∧
    ¬ (∀ (b : TokenBucket) (op : BucketOp), (∀ now, op ≠ .refill now) →
        (applyBucketOp b op).tokens ≤ b.tokens) := by
  constructor
  · norm_num [applyBucketOp, refillBucket, defaultChannelBucket, min_def]
  · intro hfa
    have hc := hfa ⟨-45, 5, 5, 1000⟩ (.deplete 1000 2000) (by intro now h; simp at h)
    norm_num [applyBucketOp] at hc

/-! ## C7: the acquisition algorithm against the specification's wording -/

/-- Modelled from the claim C7 / spec §4.1 wording: single-bucket
acquisition — (a) compute elapsed time since `lastRefill`; (b) add
`elapsed_seconds × refillRate` to `tokens`, capped at `capacity`; (c) set
`lastRefill = now`; (d) if `tokens ≥ 1`, deduct exactly 1 and return at the
current instant (granted); (e) otherwise suspend for `⌈1000 / refillRate⌉`
milliseconds and restart the whole acquisition from (a). -/
def acquireFromBucketSpec : ℕ → TokenBucket → ℚ → Option (TokenBucket × ℚ)
  | 0, _, _ => none
  | fuel + 1, b, now =>
    let elapsedSeconds : ℚ := (now - b.lastRefill) / 1000
    let tokensRefilled : ℚ := min b.capacity (b.tokens + elapsedSeconds * b.refillRate)
    if 1 ≤ tokensRefilled then
      some (⟨tokensRefilled - 1, b.capacity, b.refillRate, now⟩, now)
    else
      acquireFromBucketSpec fuel ⟨tokensRefilled, b.capacity, b.refillRate, now⟩
        (now + ((⌈(1000 : ℚ) / b.refillRate⌉ : ℤ) : ℚ))

/-- Modelled from the claim C7 wording: composite acquisition acquires from
the global bucket strictly first, then from the channel's bucket — created
on demand with the default capacity and rate if absent — polled from the
instant the global token was granted. -/
def acquireTokenSpec (s : RateLimitService) (c : String) (fuel : ℕ) (now : ℚ) :
    Option (RateLimitService × ℚ) :=
  match acquireFromBucketSpec fuel s.globalBucket now with
  | none => none
  | some (gb, t1) =>
    let cb := (s.channelBuckets c).getD (defaultChannelBucket t1)
    match acquireFromBucketSpec fuel cb t1 with
    | none => none
    | some (cb', t2) =>
      some (⟨gb, fun c' => if c' = c then some cb' else s.channelBuckets c'⟩, t2)

theorem acquireFromBucket_eq_spec :
    ∀ (fuel : ℕ) (b : TokenBucket) (now : ℚ),
      acquireFromBucket fuel b now = acquireFromBucketSpec fuel b now := by
  intro fuel
  induction fuel with
  | zero => intro b now; rfl
  | succ n ih =>
    intro b now
    simp only [acquireFromBucket, acquireFromBucketSpec, refillBucket, calculateWaitTime]
    split
    · rfl
    · exact ih _ _

theorem acquireToken_eq_spec :
    ∀ (s : RateLimitService) (c : String) (fuel : ℕ) (now : ℚ),
      acquireToken s c fuel now = acquireTokenSpec s c fuel now := by
  intro s c fuel now
  simp only [acquireToken, acquireTokenSpec, ← acquireFromBucket_eq_spec]
  cases hg : acquireFromBucket fuel s.globalBucket now with
  | none => rfl
  | some p =>
    obtain ⟨gb, t1⟩ := p
    cases hcb : s.channelBuckets c with
    | some b =>
      simp only [getOrCreateChannelBucket, hcb, Option.getD_some]
      cases hc2 : acquireFromBucket fuel b t1 with
      | none => rfl
      | some q =>
        obtain ⟨cb', t2⟩ := q
        simp only [setChannelBucket]
    | none =>
      simp only [getOrCreateChannelBucket, hcb, Option.getD_none]
      cases hc2 : acquireFromBucket fuel (defaultChannelBucket t1) t1 with
      | none => rfl
      | some q =>
        obtain ⟨cb', t2⟩ := q
        simp only [setChannelBucket, Option.some.injEq, Prod.mk.injEq]
        refine ⟨?_, trivial⟩
        congr 1
        funext c'
        by_cases hcc : c' = c <;> simp [hcc]

/-- C7: `acquireToken` acquires from the global bucket strictly before the
channel bucket (created on demand if absent), and every single-bucket
acquisition first refills (adding `elapsed × refillRate` capped at
capacity, stamping `lastRefill = now`), then if at least one token is
available deducts exactly 1 and returns, otherwise suspends for exactly
`⌈1000 / refillRate⌉` milliseconds and restarts from the refill step: the
source functions coincide with the definitions transcribed from the
specification's wording. -/
theorem acquisition_follows_spec :
    (∀ (fuel : ℕ) (b : TokenBucket) (now : ℚ),
      acquireFromBucket fuel b now = acquireFromBucketSpec fuel b now) ∧
    (∀ (s : RateLimitService) (c : String) (fuel : ℕ) (now : ℚ),
      acquireToken s c fuel now = acquireTokenSpec s c fuel now) :=
  ⟨acquireFromBucket_eq_spec, acquireToken_eq_spec⟩

/-! ## C2: error classification -/

/-- The specification's error taxonomy (§4.2 / §7). -/
inductive ErrorClassification where
  | RateLimited
  | NetworkTransient
  | HttpTransient
  | Fatal
deriving DecidableEq, Repr

/-- The classification implicit in `isRetryableError`'s decision order,
with each branch tagged by the specification's taxonomy: the
`instanceof RateLimitError` test, then the network-code test, then the
HTTP test on the extracted status code, else `Fatal`. -/
def classify (h : RetryHandler) (e : AppError) : ErrorClassification :=
  if isRateLimitInstance e then .RateLimited
  else if isNetworkError e then .NetworkTransient
  else if isHttpError e &&
      ((extractStatusCode e).elim false fun n => h.retryableCodes.contains n) then
    .HttpTransient
  else .Fatal

/-- Modelled from claim C2's wording: the failure "carries a numeric
`status`, `statusCode`, or `code` field whose value is in the configured
retryable set" — an existential over the three fields, with no precedence
among them. -/
def hasRetryableNumericField (h : RetryHandler) (e : JsError) : Bool :=
  [e.status, e.statusCode, e.code].any fun f =>
    match f with
    | some (.num n) => h.retryableCodes.contains n
    | _ => false

/-- Modelled from claim C2's wording: the claimed classification
precedence, using the existential field reading for the HTTP step. -/
def classifyClaimC2 (h : RetryHandler) (e : AppError) : ErrorClassification :=
  if isRateLimitInstance e then .RateLimited
  else if isNetworkError e then .NetworkTransient
  else
    match e with
    | .jsError je => if hasRetryableNumericField h je then .HttpTransient else .Fatal
    | .rateLimitError _ _ => .Fatal

/-- C2 (amended): classification precedence — `RateLimitError` instances
are `RateLimited`; else a string `code` among the recognised network codes
gives `NetworkTransient`; else, when the failure has a `status`,
`statusCode` or `code` field and the first of these (in that order) holding
a number holds a value in the configured retryable set, it is
`HttpTransient`; otherwise `Fatal` — and exactly the non-`Fatal` classes
are retryable. -/
theorem classification_precedence :
    ∀ (h : RetryHandler) (e : AppError),
      (isRetryableError h e = true ↔ classify h e ≠ .Fatal) ∧
      (classify h e = .RateLimited ↔ isRateLimitInstance e = true) ∧
      (classify h e = .NetworkTransient ↔
        (isRateLimitInstance e = false ∧ isNetworkError e = true)) ∧
      (classify h e = .HttpTransient ↔
        (isRateLimitInstance e = false ∧ isNetworkError e = false ∧
          isHttpError e = true ∧
          ∃ n : ℤ, extractStatusCode e = some n ∧ h.retryableCodes.contains n = true)) := by
  intro h e
  cases e with
  | rateLimitError ra cid =>
    simp [classify, isRetryableError, isRateLimitInstance, isNetworkError,
      isHttpError, extractStatusCode]
  | jsError je =>
    by_cases hn : isNetworkError (.jsError je) = true
    · simp [classify, isRetryableError, isRateLimitInstance, hn]
    · rw [Bool.not_eq_true] at hn
      by_cases hh : isHttpError (.jsError je) = true
      · cases hs : extractStatusCode (.jsError je) with
        | none =>
          simp [classify, isRetryableError, isRateLimitInstance, hn, hh, hs]
        | some m =>
          by_cases hc : h.retryableCodes.contains m = true
          · have hm : m ∈ h.retryableCodes := by simpa using hc
            simp [classify, isRetryableError, isRateLimitInstance, hn, hh, hs, hc, hm]
          · rw [Bool.not_eq_true] at hc
            have hm : ¬ (m ∈ h.retryableCodes) := by simpa using hc
            simp [classify, isRetryableError, isRateLimitInstance, hn, hh, hs, hc, hm]
      · rw [Bool.not_eq_true] at hh
        have hs : extractStatusCode (.jsError je) = none := by
          revert hh
          simp only [isHttpError, extractStatusCode, Bool.or_eq_false_iff]
          intro hh
          obtain ⟨⟨h1, h2⟩, h3⟩ := hh
          cases hst : je.status with
          | some f => rw [hst] at h1; simp at h1
          | none =>
            cases hsc : je.statusCode with
            | some f => rw [hsc] at h2; simp at h2
            | none =>
              cases hco : je.code with
              | some f => rw [hco] at h3; simp at h3
              | none => simp [hst, hsc, hco]
        simp [classify, isRetryableError, isRateLimitInstance, hn, hh, hs]

/-- Counterexample to C2 as stated: the failure
`{ status: 403, statusCode: 500 }` carries a numeric `statusCode` field in
the default retryable set, so the claim classifies it `HttpTransient`
(retryable); the code extracts `status = 403` first (field precedence) and
classifies it `Fatal`, not retrying. -/
theorem classification_precedence_counterexample :
    hasRetryableNumericField {}
      { status := some (.num 403), statusCode := some (.num 500) } = true ∧
    classifyClaimC2 {}
      (.jsError { status := some (.num 403), statusCode := some (.num 500) }) =
      .HttpTransient ∧
    classify {}
      (.jsError { status := some (.num 403), statusCode := some (.num 500) }) = .Fatal ∧
    isRetryableError {}
      (.jsError { status := some (.num 403), statusCode := some (.num 500) }) = false := by
  refine ⟨by decide, by decide, by decide, by decide⟩

/-! ## C8: the interaction acknowledgment deadline -/

/-- C8 (amended): a timeout condition (`InteractionTimeoutError`) is raised
if and only if the handler returned successfully, the interaction was never
acknowledged (neither replied nor deferred at completion), and more than
3000 ms elapsed since dispatch; when the handler raises a failure, that
failure is rethrown and no timeout condition is raised.  In particular a
handler that never acknowledges and returns after 3100 ms raises the
timeout, and one that acknowledged (replied at 1000 ms) and finishes at
5000 ms does not. -/
theorem interaction_timeout_iff :
    ∀ (cid : String) (replied deferred : Bool) (elapsed : ℚ)
      (outcome : Except AppError Unit),
      (handleInteraction cid replied deferred elapsed outcome =
          .error (.interactionTimeout cid) ↔
        (outcome = .ok () ∧ replied = false ∧ deferred = false ∧ 3000 < elapsed)) ∧
      (∀ e : AppError, outcome = .error e →
        handleInteraction cid replied deferred elapsed outcome =
          .error (.handlerFailure e)) ∧
      handleInteraction cid false false 3100 (.ok ()) =
        .error (.interactionTimeout cid) ∧
      handleInteraction cid true false 5000 (.ok ()) = .ok () := by
  intro cid r d t o
  refine ⟨?_, ?_, ?_, rfl⟩
  · cases o with
    | error e => simp [handleInteraction]
    | ok u =>
      cases u
      simp only [handleInteraction]
      split_ifs with hcond <;>
        simp_all [Bool.not_eq_true', decide_eq_true_eq]
  · intro e he
    rw [he]
    rfl
  · norm_num [handleInteraction]

/-- Counterexample to C8 as stated: a handler that raises a failure while
never acknowledging, finishing 3100 ms after dispatch — the claim says a
timeout condition is raised, but the code rethrows the handler's failure
and raises no `InteractionTimeoutError` (the deadline check only runs when
the handler returns successfully). -/
theorem interaction_timeout_counterexample :
    handleInteraction "btn" false false 3100 (.error (.jsError {})) =
      .error (.handlerFailure (.jsError {})) ∧
    handleInteraction "btn" false false 3100 (.error (.jsError {})) ≠
      .error (.interactionTimeout "btn") :=
  ⟨rfl, by simp [handleInteraction]⟩

/-! ## C10 and C4: cooldown extraction and error propagation -/

/-- Modelled from claim C10's wording: the cooldown is the `retryAfter`
field taken as milliseconds if present; otherwise the `retry_after` field
times 1000 if present; otherwise 1000 ms — presence alone, with no
truthiness test. -/
def extractRetryAfterClaim (e : JsError) : ℤ :=
  match e.retryAfter with
  | some n => n
  | none =>
    match e.retry_after with
    | some n => n * 1000
    | none => 1000

/-- C10 (amended): for an error whose `status`, `statusCode` or `code`
equals 429, the thrown `RateLimitError`'s cooldown is the `retryAfter`
field (milliseconds) if present and truthy (nonzero); else `retry_after`
(seconds) times 1000 if present and truthy; else exactly 1000 ms — and the
channel bucket is depleted (`tokens = 0`,
`lastRefill = now + cooldown`) with that same cooldown before the
`RateLimitError` is thrown. -/
theorem rateLimit_cooldown_extraction :
    (∀ (e : JsError) (n : ℤ), e.retryAfter = some n → n ≠ 0 →
      extractRetryAfter (.jsError e) = n) ∧
    (∀ (e : JsError) (n : ℤ), truthy e.retryAfter = false →
      e.retry_after = some n → n ≠ 0 →
      extractRetryAfter (.jsError e) = n * 1000) ∧
    (∀ e : JsError, truthy e.retryAfter = false → truthy e.retry_after = false →
      extractRetryAfter (.jsError e) = 1000) ∧
    (∀ (α : Type) (s : RateLimitService) (c : String) (now : ℚ) (e : AppError),
      isRateLimitError e = true →
      (rateLimitCatch s c now (.error e : Except AppError α)).1 =
        .error (.rateLimitError (extractRetryAfter e) (some c)) ∧
      ∃ bb : TokenBucket,
        (rateLimitCatch s c now (.error e : Except AppError α)).2.channelBuckets c =
          some bb ∧
        bb.tokens = 0 ∧ bb.lastRefill = now + (extractRetryAfter e : ℚ)) := by
  refine ⟨?_, ?_, ?_, ?_⟩
  · intro e n hra hn
    simp [extractRetryAfter, truthy, hra, hn]
  · intro e n hfalse hra hn
    simp only [truthy] at hfalse
    simp [extractRetryAfter, truthy, hfalse, hra, hn]
  · intro e h1 h2
    simp [extractRetryAfter, h1, h2]
  · intro α s c now e hrl
    refine ⟨by simp [rateLimitCatch, hrl], ?_⟩
    have hb := handleRateLimit_lookup s c ((extractRetryAfter e : ℤ) : ℚ) now
    simpa [rateLimitCatch, hrl] using hb

/-- Witness for C10's amended theorem at a concrete input: an error with
`status: 429` and `retry_after: 2` (seconds) yields a 2000 ms cooldown. -/
theorem rateLimit_cooldown_extraction_witness :
    extractRetryAfter
      (.jsError { status := some (.num 429), retry_after := some 2 }) = 2 * 1000 :=
  rateLimit_cooldown_extraction.2.1
    { status := some (.num 429), retry_after := some 2 } 2 rfl rfl (by decide)

/-- Counterexample to C10 as stated: an error with `status: 429` and
`retryAfter: 0` — the field is present, so the claim takes the cooldown to
be 0 ms, but the source's truthiness test (`if (error.retryAfter)`) skips
a zero value and falls through to the 1000 ms default. -/
theorem rateLimit_cooldown_counterexample :
    extractRetryAfterClaim { status := some (.num 429), retryAfter := some 0 } = 0 ∧
    extractRetryAfter
      (.jsError { status := some (.num 429), retryAfter := some 0 }) = 1000 ∧
    (rateLimitCatch ⟨defaultGlobalBucket 0, fun _ => none⟩ "c" 0
        (.error (.jsError { status := some (.num 429), retryAfter := some 0 }) :
          Except AppError Unit)).1 =
      .error (.rateLimitError 1000 (some "c")) :=
  ⟨rfl, rfl, rfl⟩

/-- C4 (amended): `RetryHandler.execute` always rethrows the very error
value raised by the operation's final attempt (never wrapped or
substituted), and `executeWithRateLimit`'s catch phase passes every
non-429 failure through unchanged; on the rate-limited path, however, the
caught 429 failure is replaced by a fresh `RateLimitError` carrying the
extracted cooldown and channel id, and that substitute is what propagates. -/
theorem error_propagation_identity :
    (∀ (α : Type) (h : RetryHandler) (op : ℕ → Except AppError α) (e : AppError),
      (execute h op).result = .error e →
      op ((execute h op).invocations - 1) = .error e) ∧
    (∀ (α : Type) (s : RateLimitService) (c : String) (now : ℚ) (e : AppError),
      isRateLimitError e = false →
      rateLimitCatch s c now (.error e : Except AppError α) = (.error e, s)) ∧
    (∀ (α : Type) (s : RateLimitService) (c : String) (now : ℚ) (e : AppError),
      isRateLimitError e = true →
      (rateLimitCatch s c now (.error e : Except AppError α)).1 =
        .error (.rateLimitError (extractRetryAfter e) (some c))) := by
  refine ⟨?_, ?_, ?_⟩
  · intro α h op e hr
    simpa using executeFrom_error_is_last h op h.maxRetries 0 e hr
  · intro α s c now e hrl
    simp [rateLimitCatch, hrl]
  · intro α s c now e hrl
    simp [rateLimitCatch, hrl]

/-- Counterexample to C4 as stated: with `maxRetries = 0` and an operation
whose single attempt raises `{ status: 429 }` through the rate-limit
wrapper, the error the caller receives is a fresh
`RateLimitError(1000, "c")` — not the error value the operation's attempt
raised, contradicting "never a wrapped or substituted error ... including
the rate-limited path". -/
theorem error_propagation_counterexample :
    (execute { maxRetries := 0 }
        (fun _ =>
          (rateLimitCatch ⟨defaultGlobalBucket 0, fun _ => none⟩ "c" 0
            (.error (.jsError { status := some (.num 429) }) :
              Except AppError Unit)).1)).result =
      .error (.rateLimitError 1000 (some "c")) ∧
    (AppError.rateLimitError 1000 (some "c")) ≠
      .jsError { status := some (.num 429) } :=
  ⟨rfl, by decide⟩

end DiscordNotifier
